import Mathlib

/-!
Verification development for the deep-dive digest module (src/deepDives.ts).

The module scans open issues labelled Deep-dive, extracts a due date and two
role assignments from each issue body, checks comment history for follow-up
artifacts, and renders one status line per issue.

Conventions of the embedding:
* JavaScript timestamps (milliseconds since the epoch) are modelled as Int;
  the current time, read in the source via the Date constructor with no
  arguments, becomes an explicit parameter named now.
* An ISO date string produced by Date.toISOString is represented by its
  epoch-millisecond value, which determines it uniquely.
* The duck-typed API client (kit) becomes the Kit structure below, holding
  the responses of the two paginated routes the source calls.  A function
  that makes the comments call also returns the number of such calls, so
  that absence of a network call is expressible.
* Fallible code returns Except String.
* The source regex literals use the inline dotall flag spelled as question
  mark s in parentheses, which is not valid in the ECMAScript dialect the
  source is written in; following the design notes of the specification the
  patterns are modelled with their intended dotall meaning, translated into
  explicit substring searches (the patterns contain no other metacharacters;
  the dot-star segments are modelled by the first-occurrence and greedy
  last-occurrence searches that backtracking produces).
-/

/-- Does the pattern (first argument) occur as a prefix of the second list? -/
def leadingMatch : List Char → List Char → Bool
  | [], _ => true
  | _ :: _, [] => false
  | p :: ps, c :: cs => p == c && leadingMatch ps cs

/-- Index of the first occurrence of pat in the list, if any. -/
def findSub (pat : List Char) : List Char → Option Nat
  | [] => if pat.isEmpty then some 0 else none
  | c :: cs =>
    if leadingMatch pat (c :: cs) then some 0
    else (findSub pat cs).map (· + 1)

/-- Index of the last occurrence of pat in the list, if any. -/
def findSubLast (pat : List Char) : List Char → Option Nat
  | [] => if pat.isEmpty then some 0 else none
  | c :: cs =>
    match findSubLast pat cs with
    | some i => some (i + 1)
    | none => if leadingMatch pat (c :: cs) then some 0 else none

/-- Substring test, modelling the String.prototype.includes calls of the
source. -/
def hasSubstr (s pat : String) : Bool := (findSub pat.data s.data).isSome

/-- Split at the first occurrence of pat: the text before it and the text
after it. -/
def splitFirst (s pat : String) : Option (String × String) :=
  match findSub pat.data s.data with
  | none => none
  | some i => some (⟨s.data.take i⟩, ⟨s.data.drop (i + pat.data.length)⟩)

/-- One day in milliseconds, as declared at the top of the source module. -/
def oneDayMs : Int := 1000 * 60 * 60 * 24

/-- Leap-year test of the proleptic Gregorian calendar. -/
def isLeap (y : Nat) : Bool := (y % 4 == 0 && y % 100 != 0) || (y % 400 == 0)

/-- Number of days in a calendar year. -/
def daysInYear (y : Nat) : Nat := if isLeap y then 366 else 365

/-- Days elapsed from 1970-01-01 to the start of year 1970 + n. -/
def daysFrom1970 : Nat → Nat
  | 0 => 0
  | n + 1 => daysFrom1970 n + daysInYear (1970 + n)

/-- Days elapsed from the start of the year to the start of month m. -/
def monthOffset (leap : Bool) (m : Nat) : Nat :=
  (([31, if leap then 29 else 28, 31, 30, 31, 30,
      31, 31, 30, 31, 30, 31].take (m - 1)).foldl (· + ·) 0)

/-- Epoch milliseconds of midnight UTC on a given calendar date. -/
def epochMsOfYmd (y m d : Nat) : Int :=
  ((daysFrom1970 (y - 1970) + monthOffset (isLeap y) m + (d - 1)) * 86400000 : Nat)

/-- Numeric value of a decimal digit character. -/
def digitVal (c : Char) : Nat := c.toNat - ('0').toNat

/-- ISO calendar-date recogniser on character lists: exactly the ten
characters year-year-year-year dash month-month dash day-day. -/
def parseIsoChars : List Char → Option Int
  | [y1, y2, y3, y4, h1, m1, m2, h2, d1, d2] =>
    if y1.isDigit && y2.isDigit && y3.isDigit && y4.isDigit &&
       (h1 == '-') && m1.isDigit && m2.isDigit &&
       (h2 == '-') && d1.isDigit && d2.isDigit then
      let y := 1000 * digitVal y1 + 100 * digitVal y2 + 10 * digitVal y3 + digitVal y4
      let m := 10 * digitVal m1 + digitVal m2
      let d := 10 * digitVal d1 + digitVal d2
      if 1970 ≤ y && 1 ≤ m && m ≤ 12 && 1 ≤ d && d ≤ 31 then
        some (epochMsOfYmd y m d)
      else none
    else none
  | _ => none

/-- Partial model of the JavaScript Date string parser (the Date constructor
applied to a string, observed through getTime).  It covers the calendar-date
ISO form; the legacy free-text formats of the engines are not modelled, and
every string whose first character is not a decimal digit is rejected, which
agrees with the engines on every string arising in this development (each
such string begins with the hash character of a Markdown heading, which no
engine accepts). -/
def jsDateParse (s : String) : Option Int :=
  match s.data with
  | [] => none
  | c :: cs => if c.isDigit then parseIsoChars (c :: cs) else none

/-- First full match of the due-date regex: the pattern is the literal
heading marker, a greedy dotall gap, then the literal bracket marker; the
match therefore runs from the first occurrence of the heading marker through
the end of the last occurrence of the bracket marker after it. -/
def timingMatch (body : String) : Option String :=
  match splitFirst body "## Timing" with
  | none => none
  | some (_, rest) =>
    match findSubLast ("[Google Event".data) rest.data with
    | none => none
    | some i =>
      some ("## Timing" ++ (⟨rest.data.take (i + "[Google Event".data.length)⟩ : String))

/-- Due-date extraction from an issue body, lines 21 to 28 of the source.
Array-destructuring the result of String.prototype.match throws a TypeError
when there is no match; a non-empty match skips the explicit no-date throw;
toISOString throws a RangeError when the parsed date is invalid.  The
returned ISO string is represented by its epoch-millisecond value. -/
def getDueDateFromDeepDiveBody (issueBody : String) : Except String Int :=
  match timingMatch issueBody with
  | none => Except.error "TypeError: Cannot destructure property"
  | some m =>
    if m = "" then Except.error "No date found for Deep Dive"
    else
      match jsDateParse m with
      | none => Except.error "RangeError: Invalid time value"
      | some t => Except.ok t

/-- Record of the two role flags, as produced on line 37 of the source. -/
structure MissingFields where
  leader : Bool
  notetaker : Bool
deriving DecidableEq, Repr

/-- Missing-fields extraction, lines 30 to 38 of the source.  Each match
result is array-destructured, so a missing match throws a TypeError before
the record is built: the notetaker pattern (label, greedy optional dotall
gap) matches from the first occurrence of its label to the end of the body;
the leader pattern (label, dotall gap, the word Notetaker) matches from the
first occurrence of the leader label through the last occurrence of the
word Notetaker after it, and a match exists exactly when that word occurs
after the label.  The double-bang coercions are truthiness (non-emptiness)
of the two matched strings. -/
def getMissingFieldsFromDeepDiveBody (issueBody : String) :
    Except String MissingFields :=
  match splitFirst issueBody "Notetaker:" with
  | none => Except.error "TypeError: Cannot destructure property"
  | some (_, restN) =>
    let notetaker : String := "Notetaker:" ++ restN
    match splitFirst issueBody "Leader:" with
    | none => Except.error "TypeError: Cannot destructure property"
    | some (_, restL) =>
      match findSubLast ("Notetaker".data) restL.data with
      | none => Except.error "TypeError: Cannot destructure property"
      | some i =>
        let leader : String :=
          "Leader:" ++ (⟨restL.data.take (i + "Notetaker".data.length)⟩ : String)
        Except.ok { notetaker := notetaker != "", leader := leader != "" }

/-- Result record of getMissingUpdates.  The two needs flags are optional in
the source object type and are absent from the early-return object, so they
are modelled as Option Bool, with none standing for an absent field. -/
structure MissingUpdates where
  pastDue : Bool
  needsRecording : Option Bool
  needsNotes : Option Bool
deriving DecidableEq, Repr

/-- Truthiness of a possibly absent boolean field: an absent field is falsy. -/
def optBool (o : Option Bool) : Bool := o.getD false

/-- Status evaluation, lines 40 to 70 of the source.  The comment fetch is a
thunk, and the second component counts the number of times it was invoked,
so that the early return performing no fetch is observable.  The forEach
loop clearing the two flags is translated as the corresponding left fold
over the fetched comment bodies. -/
def getMissingUpdates (now dueDate : Int) (fetchComments : Unit → List String) :
    MissingUpdates × Nat :=
  let pastDue := decide (dueDate - now ≤ oneDayMs)
  if !pastDue then
    ({ pastDue := false, needsRecording := none, needsNotes := none }, 0)
  else
    let comments := fetchComments ()
    let flags := comments.foldl (fun (acc : Bool × Bool) body =>
      ( if hasSubstr body "github.rewatch.com" then false else acc.1,
        if hasSubstr body "/accessibility/blob/main/docs/deep-dive-notes/" then false
        else acc.2)) (true, true)
    ({ pastDue := true, needsRecording := some flags.1, needsNotes := some flags.2 }, 1)

/-- An issue as returned by the issue-list route, with the fields the source
reads. -/
structure Issue where
  id : Nat
  url : String
  title : String
  body : String
deriving DecidableEq, Repr

/-- The duck-typed API client: the responses of the two paginated routes the
source calls, keyed by the arguments the source passes (owner and repo for
the open Deep-dive issue list; owner, repo and issue id for the comment
list). -/
structure Kit where
  issues : String → String → List Issue
  comments : String → String → Nat → List String

/-- One update record per issue, the interface type of the source module.
The optional highPriority flag is modelled as a Bool, absent meaning false,
matching the truthiness tests applied to it. -/
structure DeepDiveIssueUpdate where
  dueDate : Int
  id : Nat
  url : String
  missingFields : MissingFields
  missingUpdates : MissingUpdates
  title : String
  highPriority : Bool
deriving DecidableEq, Repr

/-- Assembly of one update record from the extraction results, lines 82 to 99
of the source: the body of the per-issue map callback after the due date,
the role flags and the missing-updates record have been obtained.  The
high-priority test is kept exactly as written in the source, which reads
the leader flag twice. -/
def buildDeepDiveIssueUpdate (now dueDate : Int) (issue : Issue)
    (missingFields : MissingFields) (missingUpdates : MissingUpdates) :
    DeepDiveIssueUpdate :=
  let isTomorrow := decide (dueDate - now ≤ oneDayMs)
  { dueDate := dueDate
    id := issue.id
    url := issue.url
    missingFields := missingFields
    missingUpdates := missingUpdates
    title := issue.title
    highPriority := isTomorrow && (missingFields.leader || missingFields.leader) }

/-- Per-issue pipeline of the map callback: due-date extraction (which may
throw), then the status evaluation with the comments of this issue, then
missing-fields extraction (which may also throw, during construction of the
record literal), then the record assembly. -/
def processDeepDiveIssue (kit : Kit) (now : Int) (owner repo : String)
    (issue : Issue) : Except String DeepDiveIssueUpdate :=
  match getDueDateFromDeepDiveBody issue.body with
  | Except.error e => Except.error e
  | Except.ok dueDate =>
    let missingUpdates :=
      (getMissingUpdates now dueDate (fun _ => kit.comments owner repo issue.id)).1
    match getMissingFieldsFromDeepDiveBody issue.body with
    | Except.error e => Except.error e
    | Except.ok missingFields =>
      Except.ok (buildDeepDiveIssueUpdate now dueDate issue missingFields missingUpdates)

/-- Sequential effectful map, modelling the per-issue awaits: the first
per-issue failure rejects the whole batch and no partial list is produced. -/
def mapExcept {α β : Type} (f : α → Except String β) : List α → Except String (List β)
  | [] => Except.ok []
  | a :: l =>
    match f a with
    | Except.error e => Except.error e
    | Except.ok b =>
      match mapExcept f l with
      | Except.error e => Except.error e
      | Except.ok bs => Except.ok (b :: bs)

/-- Issue collection, lines 72 to 102 of the source: fetch the open
Deep-dive issues and map each through the per-issue pipeline. -/
def getDeepDiveIssues (kit : Kit) (now : Int) (owner repo : String) :
    Except String (List DeepDiveIssueUpdate) :=
  mapExcept (processDeepDiveIssue kit now owner repo) (kit.issues owner repo)

/-- The reason selection of the formatter, the immediately invoked function
on lines 105 to 122 of the source: the high-priority block with its two
early returns, falling through to the past-due block. -/
def formatReason (u : DeepDiveIssueUpdate) : Option String :=
  match (if u.highPriority then
          (if u.missingFields.leader then
            some ("Needs a leader " ++
              (if u.missingFields.notetaker then "and a notetaker" else "") ++
              " to volunteer")
          else if u.missingFields.notetaker then
            some "Needs a notetaker to volunteer"
          else none)
        else none) with
  | some r => some r
  | none =>
    if u.missingUpdates.pastDue then
      if optBool u.missingUpdates.needsNotes then some "Needs notes"
      else if optBool u.missingUpdates.needsRecording then
        some "Needs a rewatch recording"
      else none
    else none

/-- The formatter, lines 104 to 125 of the source.  Interpolating the
undefined reason into the template literal renders the word undefined, as in
the source language. -/
def formatDeepDiveUpdate (u : DeepDiveIssueUpdate) : String :=
  (if u.highPriority then ":warning: Tomorrow\x27s " else "") ++
    "[" ++ u.title ++ "](" ++ u.url ++ "): " ++
    (match formatReason u with
     | some r => r
     | none => "undefined")

/-- Top-level entry point, lines 127 to 134 of the source: collect, format,
and join into a list fragment, or the empty string when there are no
updates. -/
def getAndFormatDeepDiveUpdates (kit : Kit) (now : Int) (owner repo : String) :
    Except String String :=
  match getDeepDiveIssues kit now owner repo with
  | Except.error e => Except.error e
  | Except.ok allIssues =>
    let updatesArray := allIssues.map formatDeepDiveUpdate
    Except.ok (if updatesArray.length ≠ 0 then
        "<li>" ++ String.intercalate "</li>\n" updatesArray
      else "")

/-- Reason selection exactly as the specification words it: the priority
cascade (a) leader missing under high priority, with the notetaker clause
appended when the notetaker is also missing, (b) notetaker missing under
high priority, (c) notes missing when past due, (d) recording missing when
past due, (e) otherwise no reason. -/
def specReasonSelection (u : DeepDiveIssueUpdate) : Option String :=
  if u.highPriority && u.missingFields.leader then
    some ("Needs a leader " ++
      (if u.missingFields.notetaker then "and a notetaker" else "") ++
      " to volunteer")
  else if u.highPriority && u.missingFields.notetaker then
    some "Needs a notetaker to volunteer"
  else if u.missingUpdates.pastDue && optBool u.missingUpdates.needsNotes then
    some "Needs notes"
  else if u.missingUpdates.pastDue && optBool u.missingUpdates.needsRecording then
    some "Needs a rewatch recording"
  else none

/-- Output shape exactly as the specification words it: an optional leading
warning marker and Tomorrow prefix when high priority, a link rendering of
title and url, a colon, then the reason. -/
def specFormatUpdate (u : DeepDiveIssueUpdate) : String :=
  (if u.highPriority then ":warning: Tomorrow\x27s " else "") ++
    "[" ++ u.title ++ "](" ++ u.url ++ "): " ++
    (match specReasonSelection u with
     | some r => r
     | none => "undefined")

theorem foldl_clear (R N : String) (l : List String) (b1 b2 : Bool) :
    l.foldl (fun (acc : Bool × Bool) body =>
      ( if hasSubstr body R then false else acc.1,
        if hasSubstr body N then false else acc.2)) (b1, b2)
    = (b1 && !(l.any fun b => hasSubstr b R), b2 && !(l.any fun b => hasSubstr b N)) := by
  induction l generalizing b1 b2 with
  | nil => simp
  | cons a l ih =>
    simp only [List.foldl_cons, List.any_cons, ih]
    cases hR : hasSubstr a R <;> cases hN : hasSubstr a N <;> simp

theorem mapExcept_error_of_mem {α β : Type} (f : α → Except String β) {l : List α}
    {x : α} {e : String} (hmem : x ∈ l) (hx : f x = Except.error e) :
    ∃ m, mapExcept f l = Except.error m := by
  induction l with
  | nil => cases hmem
  | cons a tl ih =>
    cases hfa : f a with
    | error e2 => exact ⟨e2, by simp [mapExcept, hfa]⟩
    | ok b =>
      rcases List.mem_cons.mp hmem with rfl | hmemtl
      · rw [hfa] at hx; exact Except.noConfusion hx
      · obtain ⟨m, hm⟩ := ih hmemtl
        exact ⟨m, by simp [mapExcept, hfa, hm]⟩

theorem jsDateParse_of_hash (m : String) (tl : List Char) (h : m.data = '#' :: tl) :
    jsDateParse m = none := by
  unfold jsDateParse
  rw [h]
  have hd : ('#').isDigit = false := rfl
  simp [hd]

theorem timingMatch_starts_with_hash (body m : String) (h : timingMatch body = some m) :
    ∃ tl, m.data = '#' :: tl := by
  unfold timingMatch at h
  cases h1 : splitFirst body "## Timing" with
  | none => rw [h1] at h; exact Option.noConfusion h
  | some pr =>
    obtain ⟨pre, rest⟩ := pr
    simp only [h1] at h
    cases h2 : findSubLast ("[Google Event".data) rest.data with
    | none => rw [h2] at h; exact Option.noConfusion h
    | some i =>
      simp only [h2, Option.some.injEq] at h
      exact ⟨'#' :: ' ' :: 'T' :: 'i' :: 'm' :: 'i' :: 'n' :: 'g' ::
        (rest.data.take (i + "[Google Event".data.length)), by rw [← h]; rfl⟩

theorem getDueDate_never_ok (body : String) (t : Int) :
    getDueDateFromDeepDiveBody body ≠ Except.ok t := by
  intro hok
  unfold getDueDateFromDeepDiveBody at hok
  cases htm : timingMatch body with
  | none => rw [htm] at hok; exact Except.noConfusion hok
  | some m =>
    simp only [htm] at hok
    obtain ⟨tl, hm⟩ := timingMatch_starts_with_hash body m htm
    have hne : m ≠ "" := by
      intro h0
      rw [h0] at hm
      exact List.noConfusion hm
    rw [if_neg hne, jsDateParse_of_hash m tl hm] at hok
    exact Except.noConfusion hok

theorem processIssue_time_blind (kit : Kit) (owner repo : String) (issue : Issue)
    (n1 n2 : Int) :
    processDeepDiveIssue kit n1 owner repo issue =
      processDeepDiveIssue kit n2 owner repo issue := by
  unfold processDeepDiveIssue
  cases h : getDueDateFromDeepDiveBody issue.body with
  | error e => simp only [h]
  | ok t => exact absurd h (getDueDate_never_ok issue.body t)

theorem getDueDate_always_errors (body : String) :
    ∃ e, getDueDateFromDeepDiveBody body = Except.error e := by
  cases h : getDueDateFromDeepDiveBody body with
  | error e => exact ⟨e, rfl⟩
  | ok t => exact absurd h (getDueDate_never_ok body t)

theorem processIssue_always_errors (kit : Kit) (now : Int) (owner repo : String)
    (issue : Issue) :
    ∃ e, processDeepDiveIssue kit now owner repo issue = Except.error e := by
  obtain ⟨e, he⟩ := getDueDate_always_errors issue.body
  exact ⟨e, by unfold processDeepDiveIssue; rw [he]⟩

theorem mapExcept_all_error {α β : Type} (f : α → Except String β)
    (hf : ∀ x, ∃ e, f x = Except.error e) (l : List α) :
    mapExcept f l = Except.ok [] ∨ ∃ e, mapExcept f l = Except.error e := by
  cases l with
  | nil => exact Or.inl rfl
  | cons a tl =>
    obtain ⟨e, he⟩ := hf a
    exact Or.inr ⟨e, by simp [mapExcept, he]⟩

/-- C1: the collector can never substantiate the claimed high-priority rule,
because it never produces an issue record at all: due-date extraction fails
on every body, so a batch either is empty (empty record list) or rejects
outright; in particular, a fully well-formed issue due in twelve hours with
a filled leader line and an empty notetaker line, which the claim says must
yield a record with highPriority true, instead rejects the batch with a
RangeError, so no issue is ever flagged (and the flag expression on line 96
of the source reads the leader flag twice rather than testing the notetaker
flag at all). -/
theorem getDeepDiveIssues_produces_no_records :
    (∀ (kit : Kit) (now : Int) (owner repo : String),
      getDeepDiveIssues kit now owner repo = Except.ok [] ∨
        ∃ e, getDeepDiveIssues kit now owner repo = Except.error e) ∧
    getDeepDiveIssues
      ⟨fun _ _ => [⟨1, "u", "Session",
        "## Timing\n2023-05-17\n[Google Event](x)\nLeader: Alice\nNotetaker:"⟩],
       fun _ _ _ => []⟩ 1684238400000 "o" "r" =
      Except.error "RangeError: Invalid time value" :=
  ⟨fun kit now owner repo =>
    mapExcept_all_error (processDeepDiveIssue kit now owner repo)
      (fun i => processIssue_always_errors kit now owner repo i)
      (kit.issues owner repo),
   rfl⟩

/-- C2: for a due date exactly one day in the future of now, the code marks
the issue past due, while the claim (and the source comment about yesterday
or earlier) requires pastDue to be false there, since the due date is not at
or before now minus the one-day window. -/
theorem pastDue_true_one_day_before_due :
    ((getMissingUpdates 0 oneDayMs (fun _ => [])).1).pastDue = true ∧
    ¬ ((oneDayMs : Int) ≤ 0 - oneDayMs) := by
  decide

/-- C3: whenever the due date is in the past, getMissingUpdates fetches the
comments once and returns pastDue true together with needsRecording and
needsNotes, each initialised true and cleared exactly when some comment body
contains the corresponding substring. -/
theorem getMissingUpdates_pastDue_scan (now dueDate : Int)
    (f : Unit → List String) (h : dueDate ≤ now) :
    getMissingUpdates now dueDate f =
      ({ pastDue := true,
         needsRecording :=
           some (!((f ()).any fun b => hasSubstr b "github.rewatch.com")),
         needsNotes :=
           some (!((f ()).any fun b =>
             hasSubstr b "/accessibility/blob/main/docs/deep-dive-notes/")) }, 1) := by
  have hle : dueDate - now ≤ oneDayMs := by
    unfold oneDayMs; omega
  simp only [getMissingUpdates, decide_eq_true hle, Bool.not_true, Bool.false_eq_true,
    if_false, foldl_clear, Bool.true_and]

/-- C3 witness: with a past due date and one comment holding the recording
substring and another holding the notes substring, both flags resolve to
false. -/
theorem getMissingUpdates_pastDue_scan_witness :
    ((-1 : Int) ≤ 0) ∧
    getMissingUpdates 0 (-1) (fun _ =>
      ["see github.rewatch.com now",
       "notes: /accessibility/blob/main/docs/deep-dive-notes/x"]) =
      ({ pastDue := true, needsRecording := some false, needsNotes := some false }, 1) :=
  ⟨by decide, (getMissingUpdates_pastDue_scan 0 (-1) _ (by decide)).trans (by decide)⟩

/-- C4: for a due date more than one day in the future, getMissingUpdates
returns pastDue false with both optional fields absent, and invokes the
comment fetch zero times. -/
theorem getMissingUpdates_future_skips_fetch (now dueDate : Int)
    (f : Unit → List String) (h : dueDate - now > oneDayMs) :
    getMissingUpdates now dueDate f =
      ({ pastDue := false, needsRecording := none, needsNotes := none }, 0) := by
  have hgt : ¬ (dueDate - now ≤ oneDayMs) := by omega
  simp [getMissingUpdates, hgt]

/-- C4 witness: two days out, nothing is fetched. -/
theorem getMissingUpdates_future_skips_fetch_witness :
    ((2 * 86400000 : Int) - 0 > oneDayMs) ∧
    getMissingUpdates 0 (2 * 86400000) (fun _ => ["x"]) =
      ({ pastDue := false, needsRecording := none, needsNotes := none }, 0) :=
  ⟨by decide, getMissingUpdates_future_skips_fetch 0 (2 * 86400000) _ (by decide)⟩

/-- C5: the formatter renders exactly the output shape the specification
describes, with the reason chosen by the stated priority cascade. -/
theorem formatDeepDiveUpdate_matches_spec (u : DeepDiveIssueUpdate) :
    formatDeepDiveUpdate u = specFormatUpdate u := by
  obtain ⟨dd, i, url, ⟨l, n⟩, ⟨pd, nr, nn⟩, t, hp⟩ := u
  cases hp <;> cases l <;> cases n <;> cases pd <;>
    rcases nr with _ | nrb <;> (try cases nrb) <;>
    rcases nn with _ | nnb <;> (try cases nnb) <;> rfl

/-- C6: due-date extraction fails on a body with a well-formed Timing
section, because the full regex match handed to the date constructor still
carries the heading and the bracket marker, which no date parser accepts
(and the source regex flag is not even valid in its dialect); and it also
fails, as the claim says, on a body lacking the section. -/
theorem getDueDate_fails_even_with_timing_section :
    getDueDateFromDeepDiveBody "## Timing\n2023-05-17\n[Google Event](x)" =
      Except.error "RangeError: Invalid time value" ∧
    getDueDateFromDeepDiveBody "no timing section here" =
      Except.error "TypeError: Cannot destructure property" :=
  ⟨rfl, rfl⟩

/-- C7: missing-fields extraction returns the same record whether the
labelled role lines are empty or filled, since the patterns match on the
mere presence of the labels; the claim requires an empty value and a filled
value to be reported differently. -/
theorem getMissingFields_blind_to_role_values :
    getMissingFieldsFromDeepDiveBody "Leader:\nNotetaker:\n" =
      Except.ok { leader := true, notetaker := true } ∧
    getMissingFieldsFromDeepDiveBody "Leader: Alice\nNotetaker: Bob\n" =
      Except.ok { leader := true, notetaker := true } :=
  ⟨rfl, rfl⟩

/-- C8: when due-date extraction fails for any issue of the batch, the
collector rejects the whole batch with that failure and the top-level entry
point rejects as well, producing no partial digest string. -/
theorem deepDive_batch_aborts_on_extraction_failure
    (kit : Kit) (now : Int) (owner repo : String) (issue : Issue) (e : String)
    (hmem : issue ∈ kit.issues owner repo)
    (herr : getDueDateFromDeepDiveBody issue.body = Except.error e) :
    ∃ msg, getDeepDiveIssues kit now owner repo = Except.error msg ∧
      getAndFormatDeepDiveUpdates kit now owner repo = Except.error msg := by
  have hpe : processDeepDiveIssue kit now owner repo issue = Except.error e := by
    unfold processDeepDiveIssue; rw [herr]
  obtain ⟨m, hm⟩ :=
    mapExcept_error_of_mem (processDeepDiveIssue kit now owner repo) hmem hpe
  have hg : getDeepDiveIssues kit now owner repo = Except.error m := by
    unfold getDeepDiveIssues; exact hm
  refine ⟨m, hg, ?_⟩
  unfold getAndFormatDeepDiveUpdates
  rw [hg]

/-- C8 witness: a one-issue batch whose body has no Timing section rejects
end to end. -/
theorem deepDive_batch_aborts_witness :
    ∃ msg,
      getDeepDiveIssues ⟨fun _ _ => [⟨1, "u", "t", "xbody"⟩], fun _ _ _ => []⟩
        0 "o" "r" = Except.error msg ∧
      getAndFormatDeepDiveUpdates ⟨fun _ _ => [⟨1, "u", "t", "xbody"⟩], fun _ _ _ => []⟩
        0 "o" "r" = Except.error msg :=
  deepDive_batch_aborts_on_extraction_failure _ 0 "o" "r" ⟨1, "u", "t", "xbody"⟩
    "TypeError: Cannot destructure property" (by decide) rfl

/-- C9: the run is a function of the API client responses, owner and repo
alone: the one further ambient input the source reads, the current time,
does not influence the output, so two runs with identical inputs produce
identical output. -/
theorem getAndFormat_function_of_responses (kit : Kit) (owner repo : String)
    (n1 n2 : Int) :
    getAndFormatDeepDiveUpdates kit n1 owner repo =
      getAndFormatDeepDiveUpdates kit n2 owner repo := by
  have hlist : ∀ l, mapExcept (processDeepDiveIssue kit n1 owner repo) l =
      mapExcept (processDeepDiveIssue kit n2 owner repo) l := by
    intro l
    induction l with
    | nil => rfl
    | cons a tl ih =>
      simp only [mapExcept, processIssue_time_blind kit owner repo a n1 n2, ih]
  have hg : getDeepDiveIssues kit n1 owner repo =
      getDeepDiveIssues kit n2 owner repo := hlist _
  unfold getAndFormatDeepDiveUpdates
  rw [hg]

/-- C10: whenever no reason branch applies, the formatter string ends with
the literal colon-space-undefined rendering of the interpolated undefined
reason rather than omitting it. -/
theorem formatDeepDiveUpdate_renders_undefined (u : DeepDiveIssueUpdate)
    (h1 : u.highPriority = false ∨
      (u.missingFields.leader = false ∧ u.missingFields.notetaker = false))
    (h2 : u.missingUpdates.pastDue = false ∨
      (optBool u.missingUpdates.needsNotes = false ∧
       optBool u.missingUpdates.needsRecording = false)) :
    ∃ s, formatDeepDiveUpdate u = s ++ ": undefined" := by
  have hr : formatReason u = none := by
    rcases h1 with h1 | ⟨hl, hn⟩ <;> rcases h2 with h2 | ⟨hnn, hnr⟩ <;>
      simp [formatReason, *]
  refine ⟨(if u.highPriority then ":warning: Tomorrow\x27s " else "") ++
    "[" ++ u.title ++ "](" ++ u.url ++ ")", ?_⟩
  simp only [formatDeepDiveUpdate, hr]
  generalize (if u.highPriority then ":warning: Tomorrow\x27s " else "") ++
    "[" ++ u.title ++ "](" ++ u.url = A
  rw [String.append_assoc A "): " "undefined", String.append_assoc A ")" ": undefined"]
  congr 1

/-- C10 witness: a quiet record renders with the undefined reason suffix. -/
theorem formatDeepDiveUpdate_renders_undefined_witness :
    (⟨0, 7, "u", ⟨false, false⟩, ⟨false, none, none⟩, "t", false⟩ :
        DeepDiveIssueUpdate).highPriority = false ∧
    ∃ s, formatDeepDiveUpdate
        ⟨0, 7, "u", ⟨false, false⟩, ⟨false, none, none⟩, "t", false⟩ =
      s ++ ": undefined" :=
  ⟨rfl, formatDeepDiveUpdate_renders_undefined _ (Or.inl rfl) (Or.inl rfl)⟩
